import Mathlib

/-!
Verification of the TaskGlitch sales-task tracker business logic.

The data model (`Task`, `Priority`, `Status`), the priority weight table
`PRIORITY_ORDER`, and the event handlers (`handleDelete`, `handleUndo`,
`handleSaveTask`, the startup `init` effect, and the `summary` aggregate) are
embedded from the application source.  JavaScript numbers are modelled as
rationals, timestamps as integers; the derived-state handlers become pure
functions on explicit state.
-/

namespace TaskGlitch

/-- Priority enum from the source types module (High, Medium, Low). -/
inductive Priority where
  | HIGH
  | MEDIUM
  | LOW
deriving DecidableEq, Repr

/-- Status enum from the source types module (To Do, In Progress, Done). -/
inductive Status where
  | TODO
  | IN_PROGRESS
  | DONE
deriving DecidableEq, Repr

/-- The Task record from the source types module. -/
structure Task where
  id : String
  title : String
  revenue : ℚ
  timeTaken : ℚ
  roi : ℚ
  priority : Priority
  status : Status
  notes : String
  createdAt : Int
deriving DecidableEq, Repr

/-- The TaskSummary record from the source types module. -/
structure TaskSummary where
  totalRevenue : ℚ
  avgRoi : ℚ
  efficiency : ℚ
  performanceGrade : String
deriving DecidableEq, Repr

/-- The PRIORITY_ORDER constant table: High ↦ 3, Medium ↦ 2, Low ↦ 1. -/
def PRIORITY_ORDER : Priority → Nat
  | .HIGH => 3
  | .MEDIUM => 2
  | .LOW => 1

/-- Modelled from the spec: `calculateRoi` lives in `utils/taskUtils`, which is
not among the provided sources (only its callers are).  Per the spec contract it
returns `revenue / timeTaken` when `timeTaken > 0` and `0` when
`timeTaken ≤ 0`, avoiding division by zero. -/
def calculateRoi (revenue timeTaken : ℚ) : ℚ :=
  if 0 < timeTaken then revenue / timeTaken else 0

/-- Boolean comparison: task `a` must be placed strictly earlier than task `b`
(higher priority weight first, then newer `createdAt` first). -/
def taskPrecedes (a b : Task) : Bool :=
  decide (PRIORITY_ORDER b.priority < PRIORITY_ORDER a.priority) ||
    (decide (PRIORITY_ORDER a.priority = PRIORITY_ORDER b.priority) &&
      decide (b.createdAt < a.createdAt))

/-- Insert a task into an already-sorted run, keeping it before every task it
does not strictly follow; ties therefore keep the inserted (earlier-input)
task first, which is what makes the sort stable. -/
def insertTask (x : Task) : List Task → List Task
  | [] => [x]
  | h :: t => if taskPrecedes h x then h :: insertTask x t else x :: h :: t

/-- Modelled from the spec: `sortTasks` lives in `utils/taskUtils`, which is not
among the provided sources.  Per the spec contract it is a stable sort, primary
key priority descending via `PRIORITY_ORDER`, secondary key `createdAt`
descending, returning a new list. -/
def sortTasks : List Task → List Task
  | [] => []
  | h :: t => insertTask h (sortTasks t)

/-- The ordering the sorted output satisfies: priority weight strictly higher,
or equal priority weight and `createdAt` no older. -/
def taskOrdered (a b : Task) : Prop :=
  PRIORITY_ORDER b.priority < PRIORITY_ORDER a.priority ∨
    (PRIORITY_ORDER a.priority = PRIORITY_ORDER b.priority ∧
      b.createdAt ≤ a.createdAt)

/-- Predicate selecting the tasks with a given sort key (priority and
creation time); used to state stability of the sort. -/
def keyPred (p : Priority) (c : Int) (t : Task) : Bool :=
  t.priority == p && t.createdAt == c

/-- Modelled from the spec: `getPerformanceGrade` lives in `utils/taskUtils`,
which is not among the provided sources.  Per the spec contract it maps an
average ROI to a letter grade through fixed decreasing thresholds; the exact
thresholds are listed as unspecified product policy, so representative ones are
used here. -/
def getPerformanceGrade (avgRoi : ℚ) : String :=
  if 100 ≤ avgRoi then "A"
  else if 50 ≤ avgRoi then "B"
  else if 20 ≤ avgRoi then "C"
  else "D"

/-- Numeric rank of a letter grade, higher is better; used to state grade
monotonicity. -/
def gradeRank : String → Nat
  | "A" => 3
  | "B" => 2
  | "C" => 1
  | _ => 0

/-- Model of `parseFloat(x.toFixed(2))`: round to two decimal places. -/
def toFixed2 (x : ℚ) : ℚ :=
  (round (x * 100) : ℚ) / 100

/-- Total revenue reduce from the `summary` memo: `reduce((acc, t) => acc + t.revenue, 0)`. -/
def totalRevenueOf (tasks : List Task) : ℚ :=
  tasks.foldl (fun acc t => acc + t.revenue) 0

/-- Total ROI reduce from the `summary` memo: `reduce((acc, t) => acc + t.roi, 0)`. -/
def totalRoiOf (tasks : List Task) : ℚ :=
  tasks.foldl (fun acc t => acc + t.roi) 0

/-- Total time reduce from the `summary` memo: `reduce((acc, t) => acc + t.timeTaken, 0)`. -/
def totalTimeOf (tasks : List Task) : ℚ :=
  tasks.foldl (fun acc t => acc + t.timeTaken) 0

/-- The `avgRoi` intermediate of the `summary` memo: guarded by the truthiness
of `tasks.length`, so the division happens only on a non-empty list. -/
def avgRoiOf (tasks : List Task) : ℚ :=
  if tasks.length ≠ 0 then totalRoiOf tasks / (tasks.length : ℚ) else 0

/-- The `summary` memo from the application component: aggregates the current
task list; `avgRoi` and `efficiency` are rounded with `toFixed(2)`, and the
grade is computed from the unrounded average ROI, exactly as in the source. -/
def summary (tasks : List Task) : TaskSummary :=
  { totalRevenue := totalRevenueOf tasks
    avgRoi := toFixed2 (avgRoiOf tasks)
    efficiency :=
      if totalTimeOf tasks ≠ 0 then
        toFixed2 (totalRevenueOf tasks / totalTimeOf tasks)
      else 0
    performanceGrade := getPerformanceGrade (avgRoiOf tasks) }

/-- The `handleDelete` handler: filters out every task whose id equals the
deleted task id, and records the deleted task in the undo buffer. -/
def handleDelete (tasks : List Task) (task : Task) : List Task × Option Task :=
  (tasks.filter (fun x => x.id != task.id), some task)

/-- The `handleUndo` handler: when the undo buffer holds a task, appends it to
the end of the list; otherwise leaves the list unchanged. -/
def handleUndo (tasks : List Task) (lastDeletedTask : Option Task) : List Task :=
  match lastDeletedTask with
  | some t => tasks ++ [t]
  | none => tasks

/-- The numeric and text fields read from the save form. -/
structure FormInput where
  title : String
  revenue : ℚ
  timeTaken : ℚ
  priority : Priority
  status : Status
  notes : String
deriving DecidableEq, Repr

/-- The `{ ...t, ...taskData }` spread in the edit branch of `handleSaveTask`:
overwrites the form-carried fields and the derived `roi`, keeping `id` and
`createdAt` from the existing task. -/
def applyTaskData (form : FormInput) (roi : ℚ) (t : Task) : Task :=
  { t with
    title := form.title
    revenue := form.revenue
    timeTaken := form.timeTaken
    priority := form.priority
    status := form.status
    notes := form.notes
    roi := roi }

/-- The `handleSaveTask` handler: derives `roi` via `calculateRoi` from the
form revenue and time, then either maps the edit over the task with the edited
id, or appends a fresh task with a new id and the current timestamp. -/
def handleSaveTask (tasks : List Task) (editingTask : Option Task)
    (form : FormInput) (newId : String) (now : Int) : List Task :=
  let roi := calculateRoi form.revenue form.timeTaken
  match editingTask with
  | some e => tasks.map (fun t => if t.id == e.id then applyTaskData form roi t else t)
  | none =>
      tasks ++
        [{ id := newId
           title := form.title
           revenue := form.revenue
           timeTaken := form.timeTaken
           roi := roi
           priority := form.priority
           status := form.status
           notes := form.notes
           createdAt := now }]

/-- The component state touched by the startup effect. -/
structure AppState where
  tasks : List Task
  isLoading : Bool
deriving DecidableEq, Repr

/-- The initial component state: empty task list, loading flag set. -/
def initialState : AppState :=
  { tasks := [], isLoading := true }

/-- The startup `init` effect: the outcome of the awaited `fetchTasks` call is
passed in as an `Except` value.  On success (when still mounted) the tasks are
replaced and loading cleared; on failure the error is logged (the returned
Boolean) and only the loading flag is cleared, so no exception escapes. -/
def init (fetchResult : Except String (List Task)) (mounted : Bool)
    (s : AppState) : AppState × Bool :=
  match fetchResult with
  | .ok data => (if mounted then { s with tasks := data, isLoading := false } else s, false)
  | .error _ => (if mounted then { s with isLoading := false } else s, true)

/-- Concrete task constructor used by concrete-input theorems. -/
def sampleTask (i : String) (p : Priority) (c : Int) : Task :=
  { id := i
    title := "t"
    revenue := 0
    timeTaken := 0
    roi := 0
    priority := p
    status := .TODO
    notes := ""
    createdAt := c }

/-- Concrete task with id 1. -/
def tA : Task := sampleTask "1" .HIGH 0

/-- Concrete task with id 2. -/
def tB : Task := sampleTask "2" .LOW 1

/-- Concrete task with revenue 1 and time 3, whose exact revenue-per-time
ratio 1/3 is not representable in two decimal places. -/
def effTask : Task :=
  { id := "e"
    title := "e"
    revenue := 1
    timeTaken := 3
    roi := 0
    priority := .MEDIUM
    status := .TODO
    notes := ""
    createdAt := 0 }

/-- Concrete form input used by concrete-input theorems. -/
def formW : FormInput :=
  { title := "w"
    revenue := 8
    timeTaken := 2
    priority := .HIGH
    status := .TODO
    notes := "" }

/-- Concrete task with id w1 for the save-handler theorems. -/
def taskW : Task :=
  { id := "w1"
    title := ""
    revenue := 1
    timeTaken := 1
    roi := 1
    priority := .LOW
    status := .DONE
    notes := ""
    createdAt := 5 }

/-- Concrete task with id x, distinct from taskW. -/
def taskX : Task := sampleTask "x" .MEDIUM 7

/-- C1: the ROI calculator divides revenue by time when time is positive
(equivalently, multiplying back recovers the revenue), returns 0 for zero or
negative time, and maps (1000, 10) to 100; it is a total function on rationals,
so it cannot throw or produce a non-finite value. -/
theorem calculateRoi_spec (revenue t : ℚ) :
    (0 < t → calculateRoi revenue t = revenue / t ∧ calculateRoi revenue t * t = revenue) ∧
    (t ≤ 0 → calculateRoi revenue t = 0) ∧
    calculateRoi revenue 0 = 0 ∧
    calculateRoi 1000 10 = 100 := by
  refine ⟨fun h => ⟨?_, ?_⟩, fun h => ?_, ?_, ?_⟩
  · simp [calculateRoi, h]
  · rw [calculateRoi, if_pos h]
    exact div_mul_cancel₀ revenue (ne_of_gt h)
  · rw [calculateRoi, if_neg (not_lt.mpr h)]
  · rw [calculateRoi, if_neg (lt_irrefl 0)]
  · norm_num [calculateRoi]

/-- Witness for C1 at concrete inputs: positive time 10 with revenue 1000, and
negative time -5 with revenue 7. -/
theorem calculateRoi_spec_witness :
    ((0 : ℚ) < 10 ∧ calculateRoi 1000 10 = 1000 / 10) ∧
    ((-5 : ℚ) ≤ 0 ∧ calculateRoi 7 (-5) = 0) :=
  ⟨⟨by norm_num, ((calculateRoi_spec 1000 10).1 (by norm_num)).1⟩,
   ⟨by norm_num, (calculateRoi_spec 7 (-5)).2.1 (by norm_num)⟩⟩

/-- A strict precedence verdict implies the sorted-output ordering. -/
theorem taskOrdered_of_precedes {a b : Task} (h : taskPrecedes a b = true) :
    taskOrdered a b := by
  unfold taskPrecedes at h
  unfold taskOrdered
  simp only [Bool.or_eq_true, Bool.and_eq_true, decide_eq_true_eq] at h
  omega

/-- A failed strict precedence verdict implies the reversed sorted-output
ordering. -/
theorem taskOrdered_of_not_precedes {a b : Task} (h : ¬ taskPrecedes a b = true) :
    taskOrdered b a := by
  unfold taskPrecedes at h
  unfold taskOrdered
  simp only [Bool.or_eq_true, Bool.and_eq_true, decide_eq_true_eq, not_or, not_and,
    not_lt] at h
  omega

/-- The sorted-output ordering is transitive. -/
theorem taskOrdered_trans {a b c : Task} (h1 : taskOrdered a b)
    (h2 : taskOrdered b c) : taskOrdered a c := by
  unfold taskOrdered at h1 h2 ⊢
  omega

/-- Insertion produces a permutation of consing. -/
theorem insertTask_perm (x : Task) (l : List Task) :
    List.Perm (insertTask x l) (x :: l) := by
  induction l with
  | nil => simp [insertTask]
  | cons h t ih =>
    by_cases hc : taskPrecedes h x = true
    · rw [insertTask, if_pos hc]
      exact (ih.cons h).trans (List.Perm.swap x h t)
    · rw [insertTask, if_neg hc]

/-- Insertion preserves the pairwise sorted-output ordering. -/
theorem insertTask_pairwise (x : Task) (l : List Task)
    (hl : List.Pairwise taskOrdered l) :
    List.Pairwise taskOrdered (insertTask x l) := by
  induction l with
  | nil => simp [insertTask]
  | cons h t ih =>
    rcases List.pairwise_cons.mp hl with ⟨hall, hp⟩
    by_cases hc : taskPrecedes h x = true
    · rw [insertTask, if_pos hc]
      refine List.pairwise_cons.mpr ⟨?_, ih hp⟩
      intro y hy
      have hy' : y = x ∨ y ∈ t := by
        have := (insertTask_perm x t).mem_iff.mp hy
        simpa using this
      rcases hy' with rfl | hy'
      · exact taskOrdered_of_precedes hc
      · exact hall y hy'
    · rw [insertTask, if_neg hc]
      have hxh : taskOrdered x h := taskOrdered_of_not_precedes hc
      refine List.pairwise_cons.mpr ⟨?_, hl⟩
      intro y hy
      rcases List.mem_cons.mp hy with rfl | hy'
      · exact hxh
      · exact taskOrdered_trans hxh (hall y hy')

/-- C2: the sorter returns a permutation of its input in which every pair of
tasks, in output order, satisfies the descending (priority weight, creation
time) lexicographic ordering: a strictly higher priority weight comes first
regardless of creation time, and among equal priority weights a newer creation
time comes first. -/
theorem sortTasks_spec (l : List Task) :
    List.Perm (sortTasks l) l ∧ List.Pairwise taskOrdered (sortTasks l) := by
  induction l with
  | nil => exact ⟨List.Perm.refl _, List.Pairwise.nil⟩
  | cons h t ih =>
    refine ⟨?_, ?_⟩
    · exact (insertTask_perm h (sortTasks t)).trans (ih.1.cons h)
    · exact insertTask_pairwise h (sortTasks t) ih.2

/-- Inserting a task distributes over filtering by a fixed sort key: the
inserted task lands in front of the selected sublist when it carries the key,
and the selected sublist is untouched otherwise. -/
theorem insertTask_filter (p : Priority) (c : Int) (x : Task) (l : List Task) :
    (insertTask x l).filter (keyPred p c) =
      if keyPred p c x = true then x :: l.filter (keyPred p c)
      else l.filter (keyPred p c) := by
  induction l with
  | nil =>
    by_cases hx : keyPred p c x = true <;> simp [insertTask, hx]
  | cons h t ih =>
    by_cases hc : taskPrecedes h x = true
    · rw [insertTask, if_pos hc]
      by_cases hx : keyPred p c x = true
      · have hh : keyPred p c h = false := by
          rcases hb : keyPred p c h with _ | _
          · rfl
          · exfalso
            unfold keyPred at hx hb
            simp only [Bool.and_eq_true, beq_iff_eq] at hx hb
            unfold taskPrecedes at hc
            simp only [Bool.or_eq_true, Bool.and_eq_true, decide_eq_true_eq] at hc
            have hpq : PRIORITY_ORDER h.priority = PRIORITY_ORDER x.priority := by
              rw [hb.1, hx.1]
            have hcc : h.createdAt = x.createdAt := by rw [hb.2, hx.2]
            omega
        rw [if_pos hx]
        rw [List.filter_cons_of_neg (by simp [hh]), List.filter_cons_of_neg (by simp [hh]),
          ih, if_pos hx]
      · rw [if_neg hx]
        rcases hb : keyPred p c h with _ | _
        · rw [List.filter_cons_of_neg (by simp [hb]), List.filter_cons_of_neg (by simp [hb]),
            ih, if_neg hx]
        · rw [List.filter_cons_of_pos (by simp [hb]), List.filter_cons_of_pos (by simp [hb]),
            ih, if_neg hx]
    · rw [insertTask, if_neg hc]
      by_cases hx : keyPred p c x = true
      · rw [if_pos hx, List.filter_cons_of_pos (by simp [hx])]
      · rw [if_neg hx, List.filter_cons_of_neg (by simp [hx])]

/-- C3: the sorter is stable, stated as key-sublist preservation: for every
priority and creation time, the subsequence of tasks carrying exactly that
sort key is identical before and after sorting, so tasks tied on both keys
keep their relative input order; the sorter is a pure function, so the input
list itself is unchanged. -/
theorem sortTasks_stable (l : List Task) (p : Priority) (c : Int) :
    (sortTasks l).filter (keyPred p c) = l.filter (keyPred p c) := by
  induction l with
  | nil => rfl
  | cons h t ih =>
    rw [sortTasks, insertTask_filter]
    by_cases hx : keyPred p c h = true
    · rw [if_pos hx, List.filter_cons_of_pos (by simp [hx]), ih]
    · rw [if_neg hx, List.filter_cons_of_neg (by simp [hx]), ih]

/-- When ids are unique and the deleted task is in the list, the id filter of
`handleDelete` removes exactly that one occurrence and keeps everything else in
order. -/
theorem filter_id_split (l : List Task) (task : Task)
    (hu : List.Pairwise (fun a b => a.id ≠ b.id) l) (hm : task ∈ l) :
    ∃ l1 l2, l = l1 ++ task :: l2 ∧
      l.filter (fun x => x.id != task.id) = l1 ++ l2 := by
  induction l with
  | nil => cases hm
  | cons h t ih =>
    rcases List.pairwise_cons.mp hu with ⟨hall, hp⟩
    by_cases hid : h.id = task.id
    · have hth : task = h := by
        rcases List.mem_cons.mp hm with h1 | h1
        · exact h1
        · exact absurd hid (hall task h1)
      subst hth
      refine ⟨[], t, by simp, ?_⟩
      have hft : t.filter (fun x => x.id != task.id) = t := by
        refine List.filter_eq_self.mpr ?_
        intro a ha
        have hne : task.id ≠ a.id := hall a ha
        simp [hne.symm]
      rw [List.filter_cons_of_neg (by simp), hft]
      simp
    · have hmem : task ∈ t := by
        rcases List.mem_cons.mp hm with h1 | h1
        · exact absurd (by rw [h1]) hid
        · exact h1
      obtain ⟨l1, l2, he, hf⟩ := ih hp hmem
      refine ⟨h :: l1, l2, by simp [he], ?_⟩
      rw [List.filter_cons_of_pos (by simp [hid]), hf]
      simp

/-- C4: with unique ids and the deleted task present, `handleDelete` removes
exactly the one record with that id, leaving every other record unchanged and
in order, and `handleUndo` on the resulting undo buffer restores the deleted
task unmodified, yielding a permutation of the original list. -/
theorem handleDelete_undo (l : List Task) (task : Task)
    (hu : List.Pairwise (fun a b => a.id ≠ b.id) l) (hm : task ∈ l) :
    (∃ l1 l2, l = l1 ++ task :: l2 ∧ (handleDelete l task).1 = l1 ++ l2) ∧
    List.Perm (handleUndo (handleDelete l task).1 (handleDelete l task).2) l := by
  obtain ⟨l1, l2, he, hf⟩ := filter_id_split l task hu hm
  refine ⟨⟨l1, l2, he, hf⟩, ?_⟩
  have hrw : handleUndo (handleDelete l task).1 (handleDelete l task).2 =
      (l1 ++ l2) ++ [task] := by
    simp only [handleDelete, handleUndo, hf]
  rw [hrw, he, List.append_assoc]
  exact List.Perm.append_left l1 (List.perm_append_singleton task l2)

/-- Witness for C4: deleting the first of two tasks with distinct ids and then
undoing. -/
theorem handleDelete_undo_witness :
    (∃ l1 l2, [tA, tB] = l1 ++ tA :: l2 ∧ (handleDelete [tA, tB] tA).1 = l1 ++ l2) ∧
    List.Perm (handleUndo (handleDelete [tA, tB] tA).1 (handleDelete [tA, tB] tA).2)
      [tA, tB] :=
  handleDelete_undo [tA, tB] tA (by simp [tA, tB, sampleTask]) (by simp)

/-- C5: the summary average ROI over the empty task list is 0: the length
guard sends the empty list to the zero branch, so the division by
`tasks.length` is never taken and no NaN can arise. -/
theorem summary_empty_avgRoi : (summary []).avgRoi = 0 := by
  simp [summary, avgRoiOf, toFixed2]

/-- C10: undo appends the restored task at the end rather than at its old
position: after a delete, the undone list is exactly the post-delete list with
the deleted task as its last element, and undo with an empty buffer changes
nothing. -/
theorem handleUndo_append (l m : List Task) (task : Task) :
    (handleUndo (handleDelete l task).1 (handleDelete l task).2).getLast? = some task ∧
    (handleUndo (handleDelete l task).1 (handleDelete l task).2).dropLast =
      (handleDelete l task).1 ∧
    handleUndo m none = m := by
  refine ⟨?_, ?_, rfl⟩
  · simp only [handleDelete, handleUndo]
    exact List.getLast?_concat _
  · simp only [handleDelete, handleUndo]
    exact List.dropLast_concat

/-- C6: on every save the stored roi is the ROI calculator applied to the
revenue and time being saved: creating appends one task whose roi is
`calculateRoi` of its own revenue and time, and editing leaves each task either
untouched (id differs from the edited id) or updated with the form revenue and
time and a roi equal to `calculateRoi` of those values; roi is never set any
other way. -/
theorem handleSaveTask_roi (tasks : List Task) (form : FormInput)
    (newId : String) (now : Int) :
    (∃ nt, handleSaveTask tasks none form newId now = tasks ++ [nt] ∧
        nt.revenue = form.revenue ∧ nt.timeTaken = form.timeTaken ∧
        nt.roi = calculateRoi nt.revenue nt.timeTaken) ∧
    ∀ e t, t ∈ handleSaveTask tasks (some e) form newId now →
      (t ∈ tasks ∧ t.id ≠ e.id) ∨
        (t.revenue = form.revenue ∧ t.timeTaken = form.timeTaken ∧
          t.roi = calculateRoi t.revenue t.timeTaken) := by
  constructor
  · exact ⟨_, rfl, rfl, rfl, rfl⟩
  · intro e t ht
    rw [handleSaveTask] at ht
    obtain ⟨o, ho, hto⟩ := List.mem_map.mp ht
    by_cases hid : (o.id == e.id) = true
    · rw [if_pos hid] at hto
      right
      rw [← hto]
      exact ⟨rfl, rfl, rfl⟩
    · rw [if_neg hid] at hto
      left
      rw [← hto]
      exact ⟨ho, by simpa using hid⟩

/-- Witness for C6: editing a one-task list where the list element is not the
one being edited, so the handler must leave it unchanged. -/
theorem handleSaveTask_roi_witness :
    (taskW ∈ [taskW] ∧ taskW.id ≠ taskX.id) ∨
      (taskW.revenue = formW.revenue ∧ taskW.timeTaken = formW.timeTaken ∧
        taskW.roi = calculateRoi taskW.revenue taskW.timeTaken) :=
  (handleSaveTask_roi [taskW] formW "n" 0).2 taskX taskW
    (by simp [handleSaveTask, taskW, taskX, sampleTask])

/-- C7: when the initial fetch fails while the component is mounted, the
failure is logged (second component `true`), the task list is left untouched
— so from the initial state it stays empty — and the loading flag is cleared;
`init` is a total function, so no exception propagates. -/
theorem init_error_spec (msg : String) (s : AppState) :
    (init (.error msg) true s).1.tasks = s.tasks ∧
    (init (.error msg) true s).1.isLoading = false ∧
    (init (.error msg) true s).2 = true ∧
    (init (.error msg) true initialState).1 = { tasks := [], isLoading := false } :=
  ⟨rfl, rfl, rfl, rfl⟩

/-- Counterexample for C8: on a single task with revenue 1 and time 3 the
stored efficiency is the two-decimal rounding 0.33, which differs from the
aggregate ratio 1/3 the claim asserts. -/
theorem summary_efficiency_cex :
    (summary [effTask]).efficiency ≠
      totalRevenueOf [effTask] / totalTimeOf [effTask] := by
  have h1 : totalRevenueOf [effTask] = 1 := by norm_num [totalRevenueOf, effTask]
  have h2 : totalTimeOf [effTask] = 3 := by norm_num [totalTimeOf, effTask]
  have h3 : (summary [effTask]).efficiency =
      if totalTimeOf [effTask] ≠ 0 then
        toFixed2 (totalRevenueOf [effTask] / totalTimeOf [effTask])
      else 0 := rfl
  rw [h3, h1, h2, if_pos (by norm_num : (3 : ℚ) ≠ 0), toFixed2]
  have h4 : round ((1 : ℚ) / 3 * 100) = 33 := by
    rw [round_eq, Int.floor_eq_iff]
    constructor <;> norm_num
  rw [h4]
  norm_num

/-- C8 amended: for every task list with positive total time, the summary
efficiency equals the aggregate revenue divided by the aggregate time, rounded
to two decimal places by `toFixed(2)`. -/
theorem summary_efficiency_rounded (l : List Task)
    (h : 0 < totalTimeOf l) :
    (summary l).efficiency = toFixed2 (totalRevenueOf l / totalTimeOf l) := by
  show (if totalTimeOf l ≠ 0 then toFixed2 (totalRevenueOf l / totalTimeOf l) else 0) =
    toFixed2 (totalRevenueOf l / totalTimeOf l)
  rw [if_pos (ne_of_gt h)]

/-- Witness for C8 at a concrete list with total time 3. -/
theorem summary_efficiency_rounded_witness :
    0 < totalTimeOf [effTask] ∧
      (summary [effTask]).efficiency =
        toFixed2 (totalRevenueOf [effTask] / totalTimeOf [effTask]) :=
  ⟨by norm_num [totalTimeOf, effTask],
    summary_efficiency_rounded [effTask] (by norm_num [totalTimeOf, effTask])⟩

/-- C9: the grade function is a pure total function on rationals and is
monotone: a larger average ROI never receives a lower-ranked grade. -/
theorem getPerformanceGrade_monotone (x y : ℚ) (h : x ≤ y) :
    gradeRank (getPerformanceGrade x) ≤ gradeRank (getPerformanceGrade y) := by
  unfold getPerformanceGrade
  split_ifs <;> first
    | decide
    | (exfalso; linarith)

/-- Witness for C9 at the concrete pair 0 ≤ 150. -/
theorem getPerformanceGrade_monotone_witness :
    gradeRank (getPerformanceGrade 0) ≤ gradeRank (getPerformanceGrade 150) :=
  getPerformanceGrade_monotone 0 150 (by norm_num)

end TaskGlitch
